import Mathlib

/-!
A shallow embedding of `src/calculator.py` (a "safe" arithmetic expression
evaluator built on Python's `ast` module) together with proofs about the
claims of its specification.

Modelling conventions, fixed once for the whole file:

* Python `int` is `ℤ`.  Python `float` is modelled as an exact rational `ℚ`:
  every operation the claims exercise (`+ - * / // %`, integer powers) is
  exact rational arithmetic, so the model agrees with IEEE semantics on the
  kind (int vs float) of every result, which is all any claim refers to.
  Real-valued powers with fractional exponents are irrational in general; the
  model keeps the float *kind* and abstracts the magnitude (no claim touches
  such a value).  Complex results are represented by a payload-free
  constructor: only their kind is ever observed.
* Python exceptions are a tagged `PyExc` type.  The source converts every
  evaluation-stage exception to `ValueError` (lines 109-113), raises
  `ValueError` directly in `_ensure_allowed`, and wraps `SyntaxError`, so the
  distinctions internal to `PyExc` model the intermediate exceptions.
* `ast.parse(expr, mode="eval")` and the `compile`/`eval` pipeline are the
  host language's; they are embedded directly: a tokenizer and
  recursive-descent parser for Python's expression grammar restricted to the
  constructs the inputs of this development use (numeric literals, string
  literals, identifiers, `+ - * / // % **`, unary `+ -`, parentheses), with
  Python's precedence and associativity, and an evaluator `evalPy` with
  Python's arithmetic semantics.
-/

namespace Calculator

/-- Python exception values, by class and message. -/
inductive PyExc where
  | valueError (msg : String)
  | zeroDivisionError (msg : String)
  | typeError (msg : String)
  | nameError (msg : String)
  | other (msg : String)
deriving DecidableEq

/-- Python runtime values that can appear in this program: the numeric tower
(`int` exact, `float` as exact `ℚ`, `bool` - a subclass of `int` in Python),
plus the non-numeric constants expressible as literals.  `complex` is
payload-free: only its kind is observed by any claim. -/
inductive Value where
  | int (n : ℤ)
  | float (q : ℚ)
  | bool (b : Bool)
  | str (s : String)
  | complex
  | none
deriving DecidableEq

/-- The `ast` binary-operator classes (`BinOp.op` field). -/
inductive BOp where
  | add | sub | mult | div | mod | pow | floorDiv
  | bitOr | bitAnd | bitXor | lshift | rshift | matMult
deriving DecidableEq

/-- The `ast` unary-operator classes (`UnaryOp.op` field). -/
inductive UOp where
  | uadd | usub | notOp | invert
deriving DecidableEq

/-- The expression nodes `ast.parse(mode="eval")` can produce (the
`Expression` wrapper is structural and left implicit: every function below
acts on its `body`).  Constructors beyond the first three model the
non-arithmetic constructs the validator must reject. -/
inductive Expr where
  | constant (v : Value)
  | binOp (op : BOp) (l r : Expr)
  | unaryOp (op : UOp) (e : Expr)
  | name (id : String)
  | call (func : Expr) (args : List Expr)
  | attr (v : Expr) (field : String)
  | subscript (v : Expr) (idx : Expr)
  | compare (l r : Expr)
  | boolOp (l r : Expr)
  | listLit (elts : List Expr)

/-- `type(op).__name__` for binary operator nodes. -/
def binOpName : BOp → String
  | .add => "Add" | .sub => "Sub" | .mult => "Mult" | .div => "Div"
  | .mod => "Mod" | .pow => "Pow" | .floorDiv => "FloorDiv"
  | .bitOr => "BitOr" | .bitAnd => "BitAnd" | .bitXor => "BitXor"
  | .lshift => "LShift" | .rshift => "RShift" | .matMult => "MatMult"

/-- `type(op).__name__` for unary operator nodes. -/
def unaryOpName : UOp → String
  | .uadd => "UAdd" | .usub => "USub" | .notOp => "Not" | .invert => "Invert"

/-- `type(node).__name__` for expression nodes. -/
def kindName : Expr → String
  | .constant _ => "Constant"
  | .binOp _ _ _ => "BinOp"
  | .unaryOp _ _ => "UnaryOp"
  | .name _ => "Name"
  | .call _ _ => "Call"
  | .attr _ _ => "Attribute"
  | .subscript _ _ => "Subscript"
  | .compare _ _ => "Compare"
  | .boolOp _ _ => "BoolOp"
  | .listLit _ => "List"

/-- Membership in `_ALLOWED_BINOP` (calculator.py lines 16-24). -/
def allowedBinOpType : BOp → Bool
  | .add | .sub | .mult | .div | .mod | .pow | .floorDiv => true
  | _ => false

/-- Membership in `_ALLOWED_UNARYOP` (calculator.py line 25). -/
def allowedUnaryOpType : UOp → Bool
  | .uadd | .usub => true
  | _ => false

/-- The body of the `for n in ast.walk(node)` loop of `_ensure_allowed`
(lines 37-49) applied to a single node `n`: `none` when the loop `continue`s,
`some e` when it raises.  A `BinOp`/`UnaryOp` node is checked for operator
membership; a `Constant` always passes (its *value* is never inspected);
every other node kind falls into the `else` branch and is rejected. -/
def nodeCheck : Expr → Option PyExc
  | .constant _ => Option.none
  | .binOp op _ _ =>
      if allowedBinOpType op then Option.none
      else Option.some (.valueError ("Disallowed binary operator: " ++ binOpName op))
  | .unaryOp op _ =>
      if allowedUnaryOpType op then Option.none
      else Option.some (.valueError ("Disallowed unary operator: " ++ unaryOpName op))
  | e => Option.some (.valueError ("Disallowed expression element: " ++ kindName e))

/-- `_ensure_allowed` (lines 35-49), applied to the `body` of the top-level
`ast.Expression` (the `Expression` node itself is in the allowed set and is
walked through).

`ast.walk` yields every descendant node breadth-first, *including the
operator instance nodes* (`ast.Add()`, `ast.USub()`, ...) stored in the `op`
field of `BinOp`/`UnaryOp`, since those are `ast.AST` instances.  Operator
classes are not in the tuple checked on line 45, so any operator node falls
into the `else` branch on line 47 and raises
`ValueError("Disallowed expression element: <OpName>")`.  Consequently the
walk never proceeds past depth one below an arithmetic node, and the BFS
first error is fully determined by one level of lookahead:

* a `BinOp` whose own operator fails the membership test raises
  `Disallowed binary operator` at the `BinOp` node itself;
* otherwise the queue holds `left, op-node, right`; `left`'s *own* check runs
  first (one node, no recursion - `left`'s children sit a level deeper, after
  the op node), then the op node raises `Disallowed expression element`;
* a `UnaryOp` stores its fields in order `op, operand`, so after the
  membership check on the `UnaryOp` node, the op node raises immediately;
* any non-arithmetic node raises `Disallowed expression element` at itself.

So validation succeeds exactly on a bare `Constant` (of any value). -/
def ensure_allowed : Expr → Except PyExc Unit
  | .constant _ => .ok ()
  | .binOp op l _ =>
      if allowedBinOpType op then
        match nodeCheck l with
        | Option.some e => .error e
        | Option.none =>
            .error (.valueError ("Disallowed expression element: " ++ binOpName op))
      else .error (.valueError ("Disallowed binary operator: " ++ binOpName op))
  | .unaryOp op _ =>
      if allowedUnaryOpType op then
        .error (.valueError ("Disallowed expression element: " ++ unaryOpName op))
      else .error (.valueError ("Disallowed unary operator: " ++ unaryOpName op))
  | e => .error (.valueError ("Disallowed expression element: " ++ kindName e))

/-! ### Python arithmetic semantics

Shared by the two evaluation paths: the `eval(compile(...))` pipeline that
`eval_expr` uses, and the hand-written tree walker `_eval_node`, whose
arithmetic cases execute exactly these host operators. -/

/-- A value in Python's real numeric tower, after `bool` collapses to `int`
(in Python `True + 1 == 2` because `bool` subclasses `int`). -/
inductive PyNum where
  | i (z : ℤ)
  | f (q : ℚ)

/-- Numeric view of a value; `Option.none` for non-numeric operands. -/
def valueToNum : Value → Option PyNum
  | .int n => Option.some (.i n)
  | .bool b => Option.some (.i (if b then 1 else 0))
  | .float q => Option.some (.f q)
  | _ => Option.none

/-- The rational magnitude of a numeric value. -/
def PyNum.toQ : PyNum → ℚ
  | .i z => (z : ℚ)
  | .f q => q

/-- `x + y`, `x - y`, `x * y`: int when both int, float otherwise. -/
def pyAdd (x y : PyNum) : Value :=
  match x, y with
  | .i a, .i b => .int (a + b)
  | _, _ => .float (x.toQ + y.toQ)

def pySub (x y : PyNum) : Value :=
  match x, y with
  | .i a, .i b => .int (a - b)
  | _, _ => .float (x.toQ - y.toQ)

def pyMul (x y : PyNum) : Value :=
  match x, y with
  | .i a, .i b => .int (a * b)
  | _, _ => .float (x.toQ * y.toQ)

/-- True division: always float, `ZeroDivisionError` on a zero divisor. -/
def pyDiv (x y : PyNum) : Except PyExc Value :=
  if y.toQ = 0 then .error (.zeroDivisionError "division by zero")
  else .ok (.float (x.toQ / y.toQ))

/-- Floor division: `Int.fdiv` (floor convention, as Python) on two ints,
float floor otherwise. -/
def pyFloorDiv (x y : PyNum) : Except PyExc Value :=
  match x, y with
  | .i a, .i b =>
      if b = 0 then .error (.zeroDivisionError "integer division or modulo by zero")
      else .ok (.int (Int.fdiv a b))
  | _, _ =>
      if y.toQ = 0 then .error (.zeroDivisionError "float floor division by zero")
      else .ok (.float ((⌊x.toQ / y.toQ⌋ : ℤ) : ℚ))

/-- Modulo: `Int.fmod` (sign follows the divisor, as Python) on two ints,
`x - y * floor (x / y)` on floats. -/
def pyMod (x y : PyNum) : Except PyExc Value :=
  match x, y with
  | .i a, .i b =>
      if b = 0 then .error (.zeroDivisionError "integer division or modulo by zero")
      else .ok (.int (Int.fmod a b))
  | _, _ =>
      if y.toQ = 0 then .error (.zeroDivisionError "float modulo")
      else .ok (.float (x.toQ - y.toQ * ((⌊x.toQ / y.toQ⌋ : ℤ) : ℚ)))

/-- Power.  Two ints with a nonnegative exponent stay int; a negative
exponent promotes to float (`ZeroDivisionError` on base 0); any float operand
gives a float for integral exponents; a non-integral exponent over a negative
base gives a complex result, and over a nonnegative base an irrational float
whose magnitude the model abstracts (no claim observes it). -/
def pyPow (x y : PyNum) : Except PyExc Value :=
  match x, y with
  | .i a, .i b =>
      if 0 ≤ b then .ok (.int (a ^ b.toNat))
      else if a = 0 then
        .error (.zeroDivisionError "0.0 cannot be raised to a negative power")
      else .ok (.float (1 / ((a : ℚ) ^ (-b).toNat)))
  | _, _ =>
      let qx := x.toQ
      let qy := y.toQ
      if qy.den = 1 then
        if 0 ≤ qy.num then .ok (.float (qx ^ qy.num.toNat))
        else if qx = 0 then
          .error (.zeroDivisionError "0.0 cannot be raised to a negative power")
        else .ok (.float (1 / qx ^ (-qy.num).toNat))
      else if qx < 0 then .ok .complex
      else .ok (.float 0)

/-- Truthiness, for `not`. -/
def truthy : Value → Bool
  | .int n => decide (n ≠ 0)
  | .float q => decide (q ≠ 0)
  | .bool b => b
  | .str s => decide (s ≠ "")
  | .complex => true
  | .none => false

/-- Application of a binary operator to two values, as the host executes it.
String concatenation is the one non-numeric combination reachable from a
literal-only tree; other non-numeric combinations and the bitwise/matrix
operators (which the validator rejects before any evaluation can reach them)
are abstracted to errors. -/
def applyBin (op : BOp) (l r : Value) : Except PyExc Value :=
  match op, l, r with
  | .add, .str a, .str b => .ok (.str (a ++ b))
  | _, _, _ =>
    match valueToNum l, valueToNum r with
    | Option.some x, Option.some y =>
        match op with
        | .add => .ok (pyAdd x y)
        | .sub => .ok (pySub x y)
        | .mult => .ok (pyMul x y)
        | .div => pyDiv x y
        | .floorDiv => pyFloorDiv x y
        | .mod => pyMod x y
        | .pow => pyPow x y
        | _ => .error (.typeError "bitwise and matrix operators are not modelled")
    | _, _ =>
        .error (.typeError ("unsupported operand type(s) for " ++ binOpName op))

/-- Application of a unary operator to a value. -/
def applyUnary (op : UOp) (v : Value) : Except PyExc Value :=
  match op with
  | .uadd =>
      match valueToNum v with
      | Option.some (.i a) => .ok (.int a)
      | Option.some (.f q) => .ok (.float q)
      | Option.none => .error (.typeError "bad operand type for unary +")
  | .usub =>
      match valueToNum v with
      | Option.some (.i a) => .ok (.int (-a))
      | Option.some (.f q) => .ok (.float (-q))
      | Option.none => .error (.typeError "bad operand type for unary -")
  | .notOp => .ok (.bool (!truthy v))
  | .invert =>
      match valueToNum v with
      | Option.some (.i a) => .ok (.int (-a - 1))
      | _ => .error (.typeError "bad operand type for unary invert")

/-- The `eval(compiled, {"__builtins__": {}}, {})` path of `eval_expr`
(lines 104-108): standard Python evaluation of the tree, left operand before
right.  A `Name` raises `NameError` under empty globals; the remaining
constructs are unreachable behind `_ensure_allowed` and are abstracted. -/
def evalPy : Expr → Except PyExc Value
  | .constant v => .ok v
  | .binOp op l r => do
      let a ← evalPy l
      let b ← evalPy r
      applyBin op a b
  | .unaryOp op e => do
      let a ← evalPy e
      applyUnary op a
  | .name id => .error (.nameError ("name " ++ id ++ " is not defined"))
  | _ => .error (.other "construct not modelled; rejected by the validator")

/-- `_eval_node` (lines 51-89), applied to the `Expression` body.  The
`isinstance(node.value, (int, float))` test on line 56 also accepts `bool`
(a subclass of `int` in Python).  The `ast.Num` compatibility case (lines
60-61) is omitted: the host parser has produced only `ast.Constant` since
Python 3.8, so no parsed tree contains a `Num` node.  The arithmetic branches
execute the same host operators as `evalPy`. -/
def eval_node : Expr → Except PyExc Value
  | .constant v =>
      match v with
      | .int n => .ok (.int n)
      | .float q => .ok (.float q)
      | .bool b => .ok (.bool b)
      | _ => .error (.valueError "Only numeric constants are allowed")
  | .binOp op l r => do
      let a ← eval_node l
      let b ← eval_node r
      match op with
      | .add | .sub | .mult | .div | .floorDiv | .mod | .pow => applyBin op a b
      | _ => .error (.valueError ("Unsupported binary operator: " ++ binOpName op))
  | .unaryOp op e => do
      let a ← eval_node e
      match op with
      | .uadd => applyUnary .uadd a
      | .usub => applyUnary .usub a
      | _ => .error (.valueError ("Unsupported unary operator: " ++ unaryOpName op))
  | e => .error (.valueError ("Unsupported AST node: " ++ kindName e))

/-! ### The host parser

`ast.parse(expr, mode="eval")`, embedded for the fragment of Python's
expression grammar these inputs use.  Precedence (low to high): `+ -`;
`* / // %`; unary `+ -`; `**` (right-associative, binding tighter than a
unary operator on its left but allowing one in its exponent) - exactly
Python's grammar for these operators. -/

/-- Tokens. -/
inductive Tok where
  | num (n : ℤ)
  | fnum (q : ℚ)
  | ident (s : String)
  | strTok (s : String)
  | plus | minus | star | slash | dslash | percent | dstar
  | lparen | rparen
deriving DecidableEq

/-- The whitespace characters of `str.strip()` and of the tokenizer
(ASCII: space, tab, newline, vertical tab, form feed, carriage return). -/
def isPySpace (c : Char) : Bool :=
  c = ' ' || c = '\t' || c = '\n' || c = '\x0b' || c = '\x0c' || c = '\r'

/-- The single-quote character (written by code to avoid literal-syntax
pitfalls in this file). -/
def squote : Char := Char.ofNat 39

def isIdentChar (c : Char) : Bool := c.isAlpha || c.isDigit || c = '_'

def digitsToNat (ds : List Char) : ℕ :=
  ds.foldl (fun a c => 10 * a + (c.toNat - '0'.toNat)) 0

/-- Lex one numeric literal (digits, optionally a decimal point and more
digits).  The caller guarantees the input starts with a digit, or with a
decimal point followed by a digit. -/
def lexNumber (cs : List Char) : Tok × List Char :=
  let ip := cs.takeWhile (fun c => c.isDigit)
  let rest := cs.dropWhile (fun c => c.isDigit)
  match rest with
  | '.' :: rest2 =>
      let fp := rest2.takeWhile (fun c => c.isDigit)
      let rest3 := rest2.dropWhile (fun c => c.isDigit)
      (.fnum ((digitsToNat ip : ℚ) + (digitsToNat fp : ℚ) / (10 : ℚ) ^ fp.length),
       rest3)
  | _ => (.num (digitsToNat ip : ℤ), rest)

/-- Tokenizer, carrying the current parenthesis nesting level.  CPython's
tokenizer (3.10 and later) caps bracket nesting at 200 (`MAXLEVEL`) and
raises `SyntaxError: too many nested parentheses` on the 201st open
parenthesis; this is host behavior `ast.parse` exhibits and is embedded here
(the model omits the `(<unknown>, line 1)` location suffix that `str` on a
`SyntaxError` appends, uniformly for all syntax errors).  Fuel decreases by
one per emitted token or skipped character; each step consumes at least one
character, so `length + 1` fuel always suffices.  An unrecognized character
is a syntax error. -/
def tokenizeAux : ℕ → ℕ → List Char → Except String (List Tok)
  | 0, _, _ => .error "internal tokenizer fuel exhausted"
  | _ + 1, _, [] => .ok []
  | fuel + 1, level, c :: cs =>
    if isPySpace c then tokenizeAux fuel level cs
    else if c = '(' then
      if 200 ≤ level then .error "too many nested parentheses"
      else
        match tokenizeAux fuel (level + 1) cs with
        | .ok ts => .ok (.lparen :: ts)
        | .error e => .error e
    else if c = ')' then
      match tokenizeAux fuel (level - 1) cs with
      | .ok ts => .ok (.rparen :: ts)
      | .error e => .error e
    else if c = '+' then
      match tokenizeAux fuel level cs with
      | .ok ts => .ok (.plus :: ts)
      | .error e => .error e
    else if c = '-' then
      match tokenizeAux fuel level cs with
      | .ok ts => .ok (.minus :: ts)
      | .error e => .error e
    else if c = '%' then
      match tokenizeAux fuel level cs with
      | .ok ts => .ok (.percent :: ts)
      | .error e => .error e
    else if c = '*' then
      match cs with
      | '*' :: cs2 =>
          match tokenizeAux fuel level cs2 with
          | .ok ts => .ok (.dstar :: ts)
          | .error e => .error e
      | _ =>
          match tokenizeAux fuel level cs with
          | .ok ts => .ok (.star :: ts)
          | .error e => .error e
    else if c = '/' then
      match cs with
      | '/' :: cs2 =>
          match tokenizeAux fuel level cs2 with
          | .ok ts => .ok (.dslash :: ts)
          | .error e => .error e
      | _ =>
          match tokenizeAux fuel level cs with
          | .ok ts => .ok (.slash :: ts)
          | .error e => .error e
    else if c.isDigit || (c = '.' && (cs.headD ' ').isDigit) then
      match lexNumber (c :: cs) with
      | (t, rest) =>
          match tokenizeAux fuel level rest with
          | .ok ts => .ok (t :: ts)
          | .error e => .error e
    else if c.isAlpha || c = '_' then
      let w := (c :: cs).takeWhile isIdentChar
      let rest := (c :: cs).dropWhile isIdentChar
      match tokenizeAux fuel level rest with
      | .ok ts => .ok (.ident (String.mk w) :: ts)
      | .error e => .error e
    else if c = '"' || c = squote then
      let w := cs.takeWhile (fun d => d ≠ c)
      let rest := cs.dropWhile (fun d => d ≠ c)
      match rest with
      | _ :: rest2 =>
          match tokenizeAux fuel level rest2 with
          | .ok ts => .ok (.strTok (String.mk w) :: ts)
          | .error e => .error e
      | [] => .error "unterminated string literal"
    else .error "invalid character"

def tokenize (s : String) : Except String (List Tok) :=
  tokenizeAux (s.data.length + 1) 0 s.data

/- Recursive-descent parser, one function per precedence level, with fuel
(each nesting level costs five fuel; `parse` supplies plenty). -/
mutual

/-- Additive level: `a (+|-) b (+|-) c ...`, left-associative. -/
def parseAdd : ℕ → List Tok → Except String (Expr × List Tok)
  | 0, _ => .error "internal parser fuel exhausted"
  | fuel + 1, ts =>
    match parseMul fuel ts with
    | .ok (a, rest) => parseAddLoop fuel a rest
    | .error e => .error e

def parseAddLoop : ℕ → Expr → List Tok → Except String (Expr × List Tok)
  | 0, _, _ => .error "internal parser fuel exhausted"
  | fuel + 1, acc, ts =>
    match ts with
    | .plus :: rest =>
        match parseMul fuel rest with
        | .ok (b, rest2) => parseAddLoop fuel (.binOp .add acc b) rest2
        | .error e => .error e
    | .minus :: rest =>
        match parseMul fuel rest with
        | .ok (b, rest2) => parseAddLoop fuel (.binOp .sub acc b) rest2
        | .error e => .error e
    | _ => .ok (acc, ts)

/-- Multiplicative level: `* / // %`, left-associative. -/
def parseMul : ℕ → List Tok → Except String (Expr × List Tok)
  | 0, _ => .error "internal parser fuel exhausted"
  | fuel + 1, ts =>
    match parseUnary fuel ts with
    | .ok (a, rest) => parseMulLoop fuel a rest
    | .error e => .error e

def parseMulLoop : ℕ → Expr → List Tok → Except String (Expr × List Tok)
  | 0, _, _ => .error "internal parser fuel exhausted"
  | fuel + 1, acc, ts =>
    match ts with
    | .star :: rest =>
        match parseUnary fuel rest with
        | .ok (b, rest2) => parseMulLoop fuel (.binOp .mult acc b) rest2
        | .error e => .error e
    | .slash :: rest =>
        match parseUnary fuel rest with
        | .ok (b, rest2) => parseMulLoop fuel (.binOp .div acc b) rest2
        | .error e => .error e
    | .dslash :: rest =>
        match parseUnary fuel rest with
        | .ok (b, rest2) => parseMulLoop fuel (.binOp .floorDiv acc b) rest2
        | .error e => .error e
    | .percent :: rest =>
        match parseUnary fuel rest with
        | .ok (b, rest2) => parseMulLoop fuel (.binOp .mod acc b) rest2
        | .error e => .error e
    | _ => .ok (acc, ts)

/-- Unary level: `+x`, `-x` (so `-2 ** 2` parses as `-(2 ** 2)`). -/
def parseUnary : ℕ → List Tok → Except String (Expr × List Tok)
  | 0, _ => .error "internal parser fuel exhausted"
  | fuel + 1, ts =>
    match ts with
    | .plus :: rest =>
        match parseUnary fuel rest with
        | .ok (e, rest2) => .ok (.unaryOp .uadd e, rest2)
        | .error e => .error e
    | .minus :: rest =>
        match parseUnary fuel rest with
        | .ok (e, rest2) => .ok (.unaryOp .usub e, rest2)
        | .error e => .error e
    | _ => parsePower fuel ts

/-- Power level: `a ** u` with a unary expression as the exponent
(right-associative, as Python). -/
def parsePower : ℕ → List Tok → Except String (Expr × List Tok)
  | 0, _ => .error "internal parser fuel exhausted"
  | fuel + 1, ts =>
    match parseAtom fuel ts with
    | .ok (a, .dstar :: rest) =>
        match parseUnary fuel rest with
        | .ok (b, rest2) => .ok (.binOp .pow a b, rest2)
        | .error e => .error e
    | .ok (a, rest) => .ok (a, rest)
    | .error e => .error e

/-- Atoms: literals, the keyword constants, identifiers, parentheses. -/
def parseAtom : ℕ → List Tok → Except String (Expr × List Tok)
  | 0, _ => .error "internal parser fuel exhausted"
  | fuel + 1, ts =>
    match ts with
    | .num n :: rest => .ok (.constant (.int n), rest)
    | .fnum q :: rest => .ok (.constant (.float q), rest)
    | .strTok s :: rest => .ok (.constant (.str s), rest)
    | .ident s :: rest =>
        if s = "True" then .ok (.constant (.bool true), rest)
        else if s = "False" then .ok (.constant (.bool false), rest)
        else if s = "None" then .ok (.constant .none, rest)
        else .ok (.name s, rest)
    | .lparen :: rest =>
        match parseAdd fuel rest with
        | .ok (e, .rparen :: rest2) => .ok (e, rest2)
        | .ok _ => .error "expected a closing parenthesis"
        | .error e => .error e
    | _ => .error "invalid syntax"

end

/-- `ast.parse(s, mode="eval")`: the body of the resulting `Expression`, or
the `SyntaxError` message.  The whole token list must be consumed (a single
expression, no trailing input). -/
def parse (s : String) : Except String Expr :=
  match tokenize s with
  | .error e => .error e
  | .ok ts =>
    match parseAdd (5 * ts.length + 5) ts with
    | .ok (e, []) => .ok e
    | .ok (_, _ :: _) => .error "invalid syntax (trailing input)"
    | .error e => .error e

/-- `eval_expr` (lines 91-113): the empty/whitespace check (line 96; the
`isinstance` half is vacuous here as the argument is a string by type), the
parse with `SyntaxError` wrapped into `ValueError` (98-101), `_ensure_allowed`
raising its own `ValueError` (103), and the `compile`/`eval` stage with
`ZeroDivisionError` mapped to `ValueError("Division by zero")` and every
other exception wrapped into `ValueError` (104-113). -/
def eval_expr (expr : String) : Except PyExc Value :=
  if expr.data.all isPySpace then
    .error (.valueError "Expression must be a non-empty string")
  else
    match parse expr with
    | .error e => .error (.valueError ("Syntax error in expression: " ++ e))
    | .ok body =>
      match ensure_allowed body with
      | .error e => .error e
      | .ok () =>
        match evalPy body with
        | .ok v => .ok v
        | .error (.zeroDivisionError _) => .error (.valueError "Division by zero")
        | .error (.valueError m) =>
            .error (.valueError ("Error evaluating expression: " ++ m))
        | .error (.typeError m) =>
            .error (.valueError ("Error evaluating expression: " ++ m))
        | .error (.nameError m) =>
            .error (.valueError ("Error evaluating expression: " ++ m))
        | .error (.other m) =>
            .error (.valueError ("Error evaluating expression: " ++ m))

/-! ### Predicates used by the claims -/

/-- The tree is built solely from the allowed grammar, judged at the level of
node kinds and operators (the level at which the validator classifies): a
literal, a binary operation with one of the seven allowed operators, or a
unary operation with one of the two allowed operators.  This is also the
`ExpressionNode` invariant of the specification. -/
def allowedConstructs : Expr → Bool
  | .constant _ => true
  | .binOp op l r => allowedBinOpType op && allowedConstructs l && allowedConstructs r
  | .unaryOp op e => allowedUnaryOpType op && allowedConstructs e
  | _ => false

/-- Every literal in an arithmetic tree carries an `int` or `float` value
(in particular not a `bool`, `str`, `complex` or `None`). -/
def numericConsts : Expr → Bool
  | .constant (.int _) => true
  | .constant (.float _) => true
  | .constant _ => false
  | .binOp _ l r => numericConsts l && numericConsts r
  | .unaryOp _ e => numericConsts e
  | _ => false

/-- Numeric values: an exact integer or a floating-point value. -/
def Value.isNumeric : Value → Bool
  | .int _ => true
  | .float _ => true
  | _ => false

/-- The rational magnitude of a value (`0` for non-numeric values). -/
def Value.toQv : Value → ℚ
  | .int n => (n : ℚ)
  | .float q => q
  | _ => 0

/-- `n` nested parentheses around an expression text. -/
def nestParens (n : ℕ) (s : String) : String :=
  String.mk (List.replicate n '(' ++ s.data ++ List.replicate n ')')

/-! ### Helper lemmas -/

/-- With a negative divisor, Python's floor-modulo lands in `(b, 0]`. -/
theorem fmod_bounds_of_neg (a : ℤ) {b : ℤ} (hb : b < 0) :
    b < a.fmod b ∧ a.fmod b ≤ 0 := by
  match a, b with
  | _, .ofNat n =>
      rw [Int.ofNat_eq_coe] at hb
      omega
  | .ofNat 0, .negSucc n =>
      rw [show Int.fmod (Int.ofNat 0) (Int.negSucc n) = 0 from rfl,
          Int.negSucc_eq]
      omega
  | .ofNat (Nat.succ m), .negSucc n =>
      have hm : m % (n + 1) < n + 1 := Nat.mod_lt _ (by omega)
      rw [show Int.fmod (Int.ofNat (Nat.succ m)) (Int.negSucc n)
            = Int.subNatNat (m % (n + 1)) n from rfl,
          Int.subNatNat_eq_coe, Int.negSucc_eq]
      omega
  | .negSucc m, .negSucc n =>
      have hm : (m + 1) % (n + 1) < n + 1 := Nat.mod_lt _ (by omega)
      rw [show Int.fmod (Int.negSucc m) (Int.negSucc n)
            = -Int.ofNat ((m + 1) % (n + 1)) from rfl,
          Int.ofNat_eq_coe, Int.negSucc_eq]
      omega

/-- `Int.fdiv` is the floor of the rational quotient: Python's `//` rounds
toward negative infinity. -/
theorem fdiv_eq_floor (a : ℤ) {b : ℤ} (hb : b ≠ 0) :
    a.fdiv b = ⌊(a : ℚ) / (b : ℚ)⌋ := by
  symm
  rw [Int.floor_eq_iff]
  have key : a.fmod b + b * a.fdiv b = a := Int.fmod_add_fdiv a b
  rcases lt_or_gt_of_ne hb with hneg | hpos
  · have hbq : (b : ℚ) < 0 := by exact_mod_cast hneg
    obtain ⟨h1, h2⟩ := fmod_bounds_of_neg a hneg
    constructor
    · rw [le_div_iff_of_neg hbq]
      have hz : a ≤ a.fdiv b * b := by
        have e : a.fdiv b * b = b * a.fdiv b := by ring
        linarith [key, h2, e]
      exact_mod_cast hz
    · rw [div_lt_iff_of_neg hbq]
      have hz : (a.fdiv b + 1) * b < a := by
        have e : (a.fdiv b + 1) * b = b * a.fdiv b + b := by ring
        linarith [key, h1, e]
      exact_mod_cast hz
  · have hbq : (0 : ℚ) < b := by exact_mod_cast hpos
    have h1 : 0 ≤ a.fmod b := Int.fmod_nonneg' a hpos
    have h2 : a.fmod b < b := Int.fmod_lt_of_pos a hpos
    constructor
    · rw [le_div_iff₀ hbq]
      have hz : a.fdiv b * b ≤ a := by
        have e : a.fdiv b * b = b * a.fdiv b := by ring
        linarith [key, h1, e]
      exact_mod_cast hz
    · rw [div_lt_iff₀ hbq]
      have hz : a < (a.fdiv b + 1) * b := by
        have e : (a.fdiv b + 1) * b = b * a.fdiv b + b := by ring
        linarith [key, h2, e]
      exact_mod_cast hz

/-- Every rejection in the per-node classification is a `ValueError` whose
message begins with `Disallowed`. -/
theorem nodeCheck_disallowed (e : Expr) :
    nodeCheck e = Option.none ∨
    ∃ m, nodeCheck e = Option.some (.valueError ("Disallowed" ++ m)) := by
  cases e with
  | constant v => exact Or.inl rfl
  | binOp op l r =>
      cases h : allowedBinOpType op with
      | true => exact Or.inl (by simp [nodeCheck, h])
      | false =>
          refine Or.inr ⟨" binary operator: " ++ binOpName op, ?_⟩
          simp only [nodeCheck, h, if_neg Bool.false_ne_true]
          rw [show ("Disallowed binary operator: " : String)
                = "Disallowed" ++ " binary operator: " from rfl,
              String.append_assoc]
  | unaryOp op e =>
      cases h : allowedUnaryOpType op with
      | true => exact Or.inl (by simp [nodeCheck, h])
      | false =>
          refine Or.inr ⟨" unary operator: " ++ unaryOpName op, ?_⟩
          simp only [nodeCheck, h, if_neg Bool.false_ne_true]
          rw [show ("Disallowed unary operator: " : String)
                = "Disallowed" ++ " unary operator: " from rfl,
              String.append_assoc]
  | name id =>
      refine Or.inr ⟨" expression element: " ++ kindName (.name id), ?_⟩
      rw [show nodeCheck (.name id)
            = Option.some (.valueError ("Disallowed expression element: "
                ++ kindName (.name id))) from rfl,
          show ("Disallowed expression element: " : String)
            = "Disallowed" ++ " expression element: " from rfl,
          String.append_assoc]
  | call f args =>
      refine Or.inr ⟨" expression element: " ++ kindName (.call f args), ?_⟩
      rw [show nodeCheck (.call f args)
            = Option.some (.valueError ("Disallowed expression element: "
                ++ kindName (.call f args))) from rfl,
          show ("Disallowed expression element: " : String)
            = "Disallowed" ++ " expression element: " from rfl,
          String.append_assoc]
  | attr v f =>
      refine Or.inr ⟨" expression element: " ++ kindName (.attr v f), ?_⟩
      rw [show nodeCheck (.attr v f)
            = Option.some (.valueError ("Disallowed expression element: "
                ++ kindName (.attr v f))) from rfl,
          show ("Disallowed expression element: " : String)
            = "Disallowed" ++ " expression element: " from rfl,
          String.append_assoc]
  | subscript v i =>
      refine Or.inr ⟨" expression element: " ++ kindName (.subscript v i), ?_⟩
      rw [show nodeCheck (.subscript v i)
            = Option.some (.valueError ("Disallowed expression element: "
                ++ kindName (.subscript v i))) from rfl,
          show ("Disallowed expression element: " : String)
            = "Disallowed" ++ " expression element: " from rfl,
          String.append_assoc]
  | compare l r =>
      refine Or.inr ⟨" expression element: " ++ kindName (.compare l r), ?_⟩
      rw [show nodeCheck (.compare l r)
            = Option.some (.valueError ("Disallowed expression element: "
                ++ kindName (.compare l r))) from rfl,
          show ("Disallowed expression element: " : String)
            = "Disallowed" ++ " expression element: " from rfl,
          String.append_assoc]
  | boolOp l r =>
      refine Or.inr ⟨" expression element: " ++ kindName (.boolOp l r), ?_⟩
      rw [show nodeCheck (.boolOp l r)
            = Option.some (.valueError ("Disallowed expression element: "
                ++ kindName (.boolOp l r))) from rfl,
          show ("Disallowed expression element: " : String)
            = "Disallowed" ++ " expression element: " from rfl,
          String.append_assoc]
  | listLit elts =>
      refine Or.inr ⟨" expression element: " ++ kindName (.listLit elts), ?_⟩
      rw [show nodeCheck (.listLit elts)
            = Option.some (.valueError ("Disallowed expression element: "
                ++ kindName (.listLit elts))) from rfl,
          show ("Disallowed expression element: " : String)
            = "Disallowed" ++ " expression element: " from rfl,
          String.append_assoc]

/-- Validation succeeds only on a bare literal: any operator in the tree is
itself walked by `ast.walk` and rejected, and every non-arithmetic construct
is rejected at its own node. -/
theorem ensure_allowed_ok_constant (t : Expr) (h : ensure_allowed t = .ok ()) :
    ∃ v, t = .constant v := by
  cases t with
  | constant v => exact ⟨v, rfl⟩
  | binOp op l r =>
      exfalso
      by_cases hop : allowedBinOpType op = true
      · rw [show ensure_allowed (.binOp op l r)
              = (if allowedBinOpType op then
                  match nodeCheck l with
                  | Option.some e => Except.error e
                  | Option.none =>
                      Except.error (.valueError
                        ("Disallowed expression element: " ++ binOpName op))
                 else Except.error (.valueError
                        ("Disallowed binary operator: " ++ binOpName op))) from rfl,
            if_pos hop] at h
        cases hnc : nodeCheck l <;> rw [hnc] at h <;> cases h
      · rw [show ensure_allowed (.binOp op l r)
              = (if allowedBinOpType op then
                  match nodeCheck l with
                  | Option.some e => Except.error e
                  | Option.none =>
                      Except.error (.valueError
                        ("Disallowed expression element: " ++ binOpName op))
                 else Except.error (.valueError
                        ("Disallowed binary operator: " ++ binOpName op))) from rfl,
            if_neg hop] at h
        cases h
  | unaryOp op e =>
      exfalso
      by_cases hop : allowedUnaryOpType op = true
      · rw [show ensure_allowed (.unaryOp op e)
              = (if allowedUnaryOpType op then
                  Except.error (.valueError
                    ("Disallowed expression element: " ++ unaryOpName op))
                 else Except.error (.valueError
                    ("Disallowed unary operator: " ++ unaryOpName op))) from rfl,
            if_pos hop] at h
        cases h
      · rw [show ensure_allowed (.unaryOp op e)
              = (if allowedUnaryOpType op then
                  Except.error (.valueError
                    ("Disallowed expression element: " ++ unaryOpName op))
                 else Except.error (.valueError
                    ("Disallowed unary operator: " ++ unaryOpName op))) from rfl,
            if_neg hop] at h
        cases h
  | name id => cases h
  | call f args => cases h
  | attr v f => cases h
  | subscript v i => cases h
  | compare l r => cases h
  | boolOp l r => cases h
  | listLit elts => cases h

/-- Any error raised by the validator is a `ValueError` whose message begins
with `Disallowed`. -/
theorem ensure_allowed_error_disallowed (t : Expr) (e : PyExc)
    (h : ensure_allowed t = .error e) :
    ∃ m, e = .valueError ("Disallowed" ++ m) := by
  cases t with
  | constant v => cases h
  | binOp op l r =>
      by_cases hop : allowedBinOpType op = true
      · rw [show ensure_allowed (.binOp op l r)
              = (if allowedBinOpType op then
                  match nodeCheck l with
                  | Option.some e => Except.error e
                  | Option.none =>
                      Except.error (.valueError
                        ("Disallowed expression element: " ++ binOpName op))
                 else Except.error (.valueError
                        ("Disallowed binary operator: " ++ binOpName op))) from rfl,
            if_pos hop] at h
        rcases nodeCheck_disallowed l with hnc | ⟨m, hnc⟩
        · rw [hnc] at h
          injection h with h
          refine ⟨" expression element: " ++ binOpName op, ?_⟩
          rw [← h, show ("Disallowed expression element: " : String)
                = "Disallowed" ++ " expression element: " from rfl,
             String.append_assoc]
        · rw [hnc] at h
          injection h with h
          exact ⟨m, h.symm⟩
      · rw [show ensure_allowed (.binOp op l r)
              = (if allowedBinOpType op then
                  match nodeCheck l with
                  | Option.some e => Except.error e
                  | Option.none =>
                      Except.error (.valueError
                        ("Disallowed expression element: " ++ binOpName op))
                 else Except.error (.valueError
                        ("Disallowed binary operator: " ++ binOpName op))) from rfl,
            if_neg hop] at h
        injection h with h
        refine ⟨" binary operator: " ++ binOpName op, ?_⟩
        rw [← h, show ("Disallowed binary operator: " : String)
              = "Disallowed" ++ " binary operator: " from rfl,
           String.append_assoc]
  | unaryOp op e' =>
      by_cases hop : allowedUnaryOpType op = true
      · rw [show ensure_allowed (.unaryOp op e')
              = (if allowedUnaryOpType op then
                  Except.error (.valueError
                    ("Disallowed expression element: " ++ unaryOpName op))
                 else Except.error (.valueError
                    ("Disallowed unary operator: " ++ unaryOpName op))) from rfl,
            if_pos hop] at h
        injection h with h
        refine ⟨" expression element: " ++ unaryOpName op, ?_⟩
        rw [← h, show ("Disallowed expression element: " : String)
              = "Disallowed" ++ " expression element: " from rfl,
           String.append_assoc]
      · rw [show ensure_allowed (.unaryOp op e')
              = (if allowedUnaryOpType op then
                  Except.error (.valueError
                    ("Disallowed expression element: " ++ unaryOpName op))
                 else Except.error (.valueError
                    ("Disallowed unary operator: " ++ unaryOpName op))) from rfl,
            if_neg hop] at h
        injection h with h
        refine ⟨" unary operator: " ++ unaryOpName op, ?_⟩
        rw [← h, show ("Disallowed unary operator: " : String)
              = "Disallowed" ++ " unary operator: " from rfl,
           String.append_assoc]
  | name id =>
      injection h with h
      refine ⟨" expression element: " ++ kindName (.name id), ?_⟩
      rw [← h, show ("Disallowed expression element: " : String)
            = "Disallowed" ++ " expression element: " from rfl,
         String.append_assoc]
  | call f args =>
      injection h with h
      refine ⟨" expression element: " ++ kindName (.call f args), ?_⟩
      rw [← h, show ("Disallowed expression element: " : String)
            = "Disallowed" ++ " expression element: " from rfl,
         String.append_assoc]
  | attr v f =>
      injection h with h
      refine ⟨" expression element: " ++ kindName (.attr v f), ?_⟩
      rw [← h, show ("Disallowed expression element: " : String)
            = "Disallowed" ++ " expression element: " from rfl,
         String.append_assoc]
  | subscript v i =>
      injection h with h
      refine ⟨" expression element: " ++ kindName (.subscript v i), ?_⟩
      rw [← h, show ("Disallowed expression element: " : String)
            = "Disallowed" ++ " expression element: " from rfl,
         String.append_assoc]
  | compare l r =>
      injection h with h
      refine ⟨" expression element: " ++ kindName (.compare l r), ?_⟩
      rw [← h, show ("Disallowed expression element: " : String)
            = "Disallowed" ++ " expression element: " from rfl,
         String.append_assoc]
  | boolOp l r =>
      injection h with h
      refine ⟨" expression element: " ++ kindName (.boolOp l r), ?_⟩
      rw [← h, show ("Disallowed expression element: " : String)
            = "Disallowed" ++ " expression element: " from rfl,
         String.append_assoc]
  | listLit elts =>
      injection h with h
      refine ⟨" expression element: " ++ kindName (.listLit elts), ?_⟩
      rw [← h, show ("Disallowed expression element: " : String)
            = "Disallowed" ++ " expression element: " from rfl,
         String.append_assoc]

/-- A tree that uses any construct outside the allowed grammar is rejected by
the validator (with a `Disallowed` `ValueError`). -/
theorem ensure_allowed_fails_of_disallowed (t : Expr)
    (h : allowedConstructs t = false) :
    ∃ m, ensure_allowed t = .error (.valueError ("Disallowed" ++ m)) := by
  cases he : ensure_allowed t with
  | ok u =>
      cases u
      obtain ⟨v, rfl⟩ := ensure_allowed_ok_constant t he
      rw [show allowedConstructs (.constant v) = true from rfl] at h
      cases h
  | error e =>
      obtain ⟨m, rfl⟩ := ensure_allowed_error_disallowed t e he
      exact ⟨m, rfl⟩

/-- The tokenizer maps all-whitespace input to the empty token list. -/
theorem tokenizeAux_all_space :
    ∀ (cs : List Char) (fuel level : ℕ), cs.length < fuel →
      cs.all isPySpace = true → tokenizeAux fuel level cs = .ok [] := by
  intro cs
  induction cs with
  | nil =>
      intro fuel level hf _
      match fuel, hf with
      | fuel + 1, _ => rfl
  | cons c cs ih =>
      intro fuel level hf hall
      rw [List.all_cons, Bool.and_eq_true] at hall
      match fuel, hf with
      | fuel + 1, hf =>
          have step : tokenizeAux (fuel + 1) level (c :: cs)
              = tokenizeAux fuel level cs := by
            simp only [tokenizeAux, hall.1, if_true]
          rw [step]
          exact ih fuel level (by simpa using Nat.lt_of_succ_lt_succ hf) hall.2

/-- All-whitespace input is a syntax error from the parser (the token list
is empty, and the atom parser rejects the end of input). -/
theorem parse_all_space (s : String) (h : s.data.all isPySpace = true) :
    parse s = .error "invalid syntax" := by
  have htok : tokenize s = .ok [] :=
    tokenizeAux_all_space s.data (s.data.length + 1) 0 (Nat.lt_succ_self _) h
  rw [show parse s
        = (match tokenize s with
           | .error e => .error e
           | .ok ts =>
             match parseAdd (5 * ts.length + 5) ts with
             | .ok (e, []) => .ok e
             | .ok (_, _ :: _) => .error "invalid syntax (trailing input)"
             | .error e => .error e) from rfl,
      htok]
  rfl

/-! ### Claims -/

/-- C1.  Any input string whose parse tree contains a construct outside the
allowed grammar - a name reference, call, attribute access, subscript, any
other non-arithmetic node kind, or an operator outside the allowed sets -
makes `eval_expr` fail with a disallowed-element `ValueError` (message
beginning `Disallowed`); it never returns a numeric result. -/
theorem c1_disallowed_construct_rejected (s : String) (t : Expr)
    (hp : parse s = .ok t) (hbad : allowedConstructs t = false) :
    ∃ m, eval_expr s = .error (.valueError ("Disallowed" ++ m)) := by
  obtain ⟨m, hm⟩ := ensure_allowed_fails_of_disallowed t hbad
  have hs : s.data.all isPySpace = false := by
    cases h : s.data.all isPySpace with
    | true => rw [parse_all_space s h] at hp; cases hp
    | false => rfl
  refine ⟨m, ?_⟩
  simp only [eval_expr, hs, hp, hm, Bool.false_eq_true, if_false]

/-- C1 witness: the input `x` parses to a bare name, which is outside the
allowed grammar, and `eval_expr` rejects it. -/
theorem c1_witness :
    parse "x" = .ok (.name "x") ∧
    allowedConstructs (.name "x") = false ∧
    ∃ m, eval_expr "x" = .error (.valueError ("Disallowed" ++ m)) :=
  ⟨rfl, rfl, c1_disallowed_construct_rejected "x" (.name "x") rfl rfl⟩

/-- C2 (code bug).  `eval_expr` can succeed with a non-numeric result: the
input `"abc"` (a Python string literal) passes validation - `_ensure_allowed`
never inspects a `Constant`'s value - and evaluates to the string `abc`,
contradicting the declared contract that a success is an int or float. -/
theorem c2_string_result : eval_expr "\"abc\"" = .ok (.str "abc") := rfl

/-- C3 counterexample: validation succeeds on a literal carrying a
non-numeric constant (here the string `abc`), refuting the part of the claim
stating that such literals do not pass validation. -/
theorem c3_counterexample :
    ensure_allowed (.constant (.str "abc")) = .ok () := rfl

/-- C3 (amended).  Whenever validation succeeds, every reachable node of the
tree is one of the three ExpressionNode cases with an operator drawn from the
allowed sets (in fact the tree is a single literal); literals carrying
non-numeric constants, however, also pass validation. -/
theorem c3_validated_invariant (t : Expr) (h : ensure_allowed t = .ok ()) :
    allowedConstructs t = true := by
  obtain ⟨v, rfl⟩ := ensure_allowed_ok_constant t h
  rfl

/-- C3 witness: a concrete validated tree. -/
theorem c3_witness :
    ensure_allowed (.constant (.int 5)) = .ok () ∧
    allowedConstructs (.constant (.int 5)) = true :=
  ⟨rfl, c3_validated_invariant (.constant (.int 5)) rfl⟩

/-- C4 (code bug).  `eval_expr "1/0"`, `eval_expr "5 % 0"` and
`eval_expr "7 // 0"` do fail, but with the validator's disallowed-element
`ValueError` (because `ast.walk` also yields the operator instance nodes,
which fall into the rejecting `else` branch), not with the division-by-zero
error the claim states; evaluation is never reached. -/
theorem c4_divzero_actual :
    eval_expr "1/0" = .error (.valueError "Disallowed expression element: Div") ∧
    eval_expr "5 % 0" = .error (.valueError "Disallowed expression element: Mod") ∧
    eval_expr "7 // 0" = .error (.valueError "Disallowed expression element: FloorDiv") :=
  ⟨rfl, rfl, rfl⟩

/-- C5 (code bug).  The precedence examples do not return 14, 20 and 512:
every expression containing an operator is rejected by the validator with a
disallowed-element `ValueError`, because `ast.walk` yields the operator
instance nodes themselves. -/
theorem c5_precedence_actual :
    eval_expr "2 + 3 * 4" = .error (.valueError "Disallowed expression element: Add") ∧
    eval_expr "(2 + 3) * 4" = .error (.valueError "Disallowed expression element: Mult") ∧
    eval_expr "2 ** 3 ** 2" = .error (.valueError "Disallowed expression element: Pow") :=
  ⟨rfl, rfl, rfl⟩

/-- C6 (code bug).  The sign-convention examples never reach arithmetic:
each fails in the validator with a disallowed-element `ValueError` (operator
instance nodes are walked and rejected), instead of returning 1, 3 and -1. -/
theorem c6_floormod_actual :
    eval_expr "-3 + 4" = .error (.valueError "Disallowed expression element: Add") ∧
    eval_expr "7 // 2" = .error (.valueError "Disallowed expression element: FloorDiv") ∧
    eval_expr "7 % -2" = .error (.valueError "Disallowed expression element: Mod") :=
  ⟨rfl, rfl, rfl⟩

/-- C7.  For numeric operands with a nonzero right operand, true division
always produces a float (of the exact quotient), while floor division on two
integers produces an exact integer: the floor of the quotient, rounding
toward negative infinity. -/
theorem c7_div_floordiv (l r : Value) (hl : l.isNumeric = true)
    (hr : r.isNumeric = true) (hz : r.toQv ≠ 0) :
    (∃ q : ℚ, applyBin .div l r = .ok (.float q) ∧ q = l.toQv / r.toQv) ∧
    (∀ a b : ℤ, l = .int a → r = .int b →
      applyBin .floorDiv l r = .ok (.int ⌊(a : ℚ) / (b : ℚ)⌋)) := by
  cases l with
  | int a =>
    cases r with
    | int b =>
        have hb : (b : ℚ) ≠ 0 := by simpa [Value.toQv] using hz
        have hbz : b ≠ 0 := fun h => hb (by exact_mod_cast h)
        constructor
        · exact ⟨(a : ℚ) / (b : ℚ),
            by simp [applyBin, valueToNum, pyDiv, PyNum.toQ, hb],
            by simp [Value.toQv]⟩
        · intro a' b' ha hbeq
          cases ha
          cases hbeq
          simp [applyBin, valueToNum, pyFloorDiv, hbz, fdiv_eq_floor a hbz]
    | float qb =>
        have hb : qb ≠ 0 := by simpa [Value.toQv] using hz
        constructor
        · exact ⟨(a : ℚ) / qb,
            by simp [applyBin, valueToNum, pyDiv, PyNum.toQ, hb],
            by simp [Value.toQv]⟩
        · intro a' b' ha hbeq
          cases hbeq
    | bool b => simp [Value.isNumeric] at hr
    | str s => simp [Value.isNumeric] at hr
    | complex => simp [Value.isNumeric] at hr
    | none => simp [Value.isNumeric] at hr
  | float qa =>
    cases r with
    | int b =>
        have hb : (b : ℚ) ≠ 0 := by simpa [Value.toQv] using hz
        constructor
        · exact ⟨qa / (b : ℚ),
            by simp [applyBin, valueToNum, pyDiv, PyNum.toQ, hb],
            by simp [Value.toQv]⟩
        · intro a' b' ha hbeq
          cases ha
    | float qb =>
        have hb : qb ≠ 0 := by simpa [Value.toQv] using hz
        constructor
        · exact ⟨qa / qb,
            by simp [applyBin, valueToNum, pyDiv, PyNum.toQ, hb],
            by simp [Value.toQv]⟩
        · intro a' b' ha hbeq
          cases ha
    | bool b => simp [Value.isNumeric] at hr
    | str s => simp [Value.isNumeric] at hr
    | complex => simp [Value.isNumeric] at hr
    | none => simp [Value.isNumeric] at hr
  | bool b => simp [Value.isNumeric] at hl
  | str s => simp [Value.isNumeric] at hl
  | complex => simp [Value.isNumeric] at hl
  | none => simp [Value.isNumeric] at hl

/-- C7 witness: `7 / 2` is the float `7/2` and `7 // 2` the integer `3`. -/
theorem c7_witness :
    (Value.int 7).isNumeric = true ∧ (Value.int 2).isNumeric = true ∧
    (Value.int 2).toQv ≠ 0 ∧
    ((∃ q : ℚ, applyBin .div (.int 7) (.int 2) = .ok (.float q) ∧
        q = (Value.int 7).toQv / (Value.int 2).toQv) ∧
     (∀ a b : ℤ, Value.int 7 = .int a → Value.int 2 = .int b →
        applyBin .floorDiv (.int 7) (.int 2) = .ok (.int ⌊(a : ℚ) / (b : ℚ)⌋))) :=
  ⟨rfl, rfl, by decide,
   c7_div_floordiv (.int 7) (.int 2) rfl rfl (by decide)⟩

/-- C8.  Every failure of `eval_expr` is a `ValueError`: the empty-input and
syntax errors are raised as `ValueError` directly, the validator raises only
`ValueError`, and the evaluation stage converts `ZeroDivisionError` and every
other exception into `ValueError`; no failure produces a fallback numeric
result. -/
theorem c8_single_error_kind (s : String) (e : PyExc)
    (h : eval_expr s = .error e) : ∃ m, e = .valueError m := by
  unfold eval_expr at h
  split at h
  · injection h with h
    exact ⟨_, h.symm⟩
  · split at h
    · injection h with h
      exact ⟨_, h.symm⟩
    · split at h
      · rename_i e' heq
        injection h with h
        obtain ⟨m, hm⟩ := ensure_allowed_error_disallowed _ e' heq
        exact ⟨"Disallowed" ++ m, by rw [← h, hm]⟩
      · split at h
        · cases h
        · injection h with h
          exact ⟨_, h.symm⟩
        · injection h with h
          exact ⟨_, h.symm⟩
        · injection h with h
          exact ⟨_, h.symm⟩
        · injection h with h
          exact ⟨_, h.symm⟩
        · injection h with h
          exact ⟨_, h.symm⟩

/-- C8 witness: the empty input fails, and its error is a `ValueError`. -/
theorem c8_witness :
    eval_expr "" = .error (.valueError "Expression must be a non-empty string") ∧
    ∃ m, PyExc.valueError "Expression must be a non-empty string" = .valueError m :=
  ⟨rfl, c8_single_error_kind "" _ rfl⟩

/-- C10.  On every parsed tree that passes `_ensure_allowed` and whose
constants are all int or float, the unused tree walker `_eval_node` computes
exactly the same result as the `compile`/`eval` path `eval_expr` actually
uses (such a tree is necessarily a bare numeric literal, which both paths
return unchanged; in particular they error on exactly the same inputs,
namely none). -/
theorem c10_eval_node_agrees (t : Expr) (hv : ensure_allowed t = .ok ())
    (hn : numericConsts t = true) : eval_node t = evalPy t := by
  obtain ⟨v, rfl⟩ := ensure_allowed_ok_constant t hv
  cases v with
  | int n => rfl
  | float q => rfl
  | bool b => simp [numericConsts] at hn
  | str s => simp [numericConsts] at hn
  | complex => simp [numericConsts] at hn
  | none => simp [numericConsts] at hn

/-- C10 witness: both evaluators return the literal `5`. -/
theorem c10_witness :
    ensure_allowed (.constant (.int 5)) = .ok () ∧
    numericConsts (.constant (.int 5)) = true ∧
    eval_node (.constant (.int 5)) = evalPy (.constant (.int 5)) :=
  ⟨rfl, rfl, c10_eval_node_agrees (.constant (.int 5)) rfl rfl⟩

/-! ### Nested-parenthesis lemmas (claim C9)

The repository code imposes no depth limit of its own; the host tokenizer
caps parenthesis nesting at 200.  The lemmas below characterize `(^n 7 )^n`
for every `n`, by induction. -/

/-- One tokenizer step on an opening parenthesis below the nesting cap. -/
theorem tokenizeAux_lparen (fuel level : ℕ) (h : level < 200) (cs : List Char) :
    tokenizeAux (fuel + 1) level ('(' :: cs)
      = match tokenizeAux fuel (level + 1) cs with
        | .ok ts => .ok (.lparen :: ts)
        | .error e => .error e := by
  have h2 : ¬ (200 ≤ level) := by omega
  simp only [tokenizeAux, show isPySpace '(' = false from rfl,
             Bool.false_eq_true, if_false, if_pos rfl, h2, if_true]

/-- One tokenizer step on a closing parenthesis. -/
theorem tokenizeAux_rparen (fuel level : ℕ) (cs : List Char) :
    tokenizeAux (fuel + 1) level (')' :: cs)
      = match tokenizeAux fuel (level - 1) cs with
        | .ok ts => .ok (.rparen :: ts)
        | .error e => .error e := rfl

/-- A block of `n` opening parentheses, fitting under the nesting cap,
tokenizes to `n` `lparen` tokens. -/
theorem tokenizeAux_lparen_block :
    ∀ (n fuel level : ℕ) (cs : List Char), level + n ≤ 200 →
      tokenizeAux (n + fuel) level (List.replicate n '(' ++ cs)
        = match tokenizeAux fuel (level + n) cs with
          | .ok ts => .ok (List.replicate n Tok.lparen ++ ts)
          | .error e => .error e := by
  intro n
  induction n with
  | zero =>
      intro fuel level cs _
      simp only [List.replicate_zero, List.nil_append, Nat.zero_add, Nat.add_zero]
      cases tokenizeAux fuel level cs <;> rfl
  | succ n ih =>
      intro fuel level cs hcap
      rw [List.replicate_succ, List.cons_append,
          show n + 1 + fuel = (n + fuel) + 1 by omega,
          tokenizeAux_lparen (n + fuel) level (by omega),
          ih fuel (level + 1) cs (by omega),
          show level + 1 + n = level + (n + 1) by omega,
          List.replicate_succ]
      cases tokenizeAux fuel (level + (n + 1)) cs <;> rfl

/-- A block of `n` closing parentheses tokenizes to `n` `rparen` tokens. -/
theorem tokenizeAux_rparen_block :
    ∀ (n fuel level : ℕ) (cs : List Char),
      tokenizeAux (n + fuel) level (List.replicate n ')' ++ cs)
        = match tokenizeAux fuel (level - n) cs with
          | .ok ts => .ok (List.replicate n Tok.rparen ++ ts)
          | .error e => .error e := by
  intro n
  induction n with
  | zero =>
      intro fuel level cs
      simp only [List.replicate_zero, List.nil_append, Nat.zero_add, Nat.sub_zero]
      cases tokenizeAux fuel level cs <;> rfl
  | succ n ih =>
      intro fuel level cs
      rw [List.replicate_succ, List.cons_append,
          show n + 1 + fuel = (n + fuel) + 1 by omega,
          tokenizeAux_rparen, ih fuel (level - 1) cs,
          show level - 1 - n = level - (n + 1) by omega,
          List.replicate_succ]
      cases tokenizeAux fuel (level - (n + 1)) cs <;> rfl

/-- Beyond the cap: a run of opening parentheses that pushes the nesting
level past 200 makes the tokenizer fail with the host's error. -/
theorem tokenizeAux_lparen_deep :
    ∀ (n fuel level : ℕ) (cs : List Char), 1 ≤ n → 200 < level + n → n ≤ fuel →
      tokenizeAux fuel level (List.replicate n '(' ++ cs)
        = .error "too many nested parentheses" := by
  intro n
  induction n with
  | zero => intro fuel level cs h1 _ _; omega
  | succ n ih =>
      intro fuel level cs _ hcap hfuel
      match fuel, hfuel with
      | fuel + 1, hfuel =>
        rw [List.replicate_succ, List.cons_append]
        by_cases hlev : 200 ≤ level
        · simp only [tokenizeAux, show isPySpace '(' = false from rfl,
                     Bool.false_eq_true, if_false, if_pos rfl, hlev, if_true]
        · rw [tokenizeAux_lparen fuel level (by omega),
              ih fuel (level + 1) cs (by omega) (by omega) (by omega)]

/-- Below the cap, `(^n 7 )^n` tokenizes to `lparen^n, 7, rparen^n`. -/
theorem tokenize_nest (n : ℕ) (hn : n ≤ 200) :
    tokenize (nestParens n "7")
      = .ok (List.replicate n Tok.lparen ++ Tok.num 7 :: List.replicate n Tok.rparen) := by
  have hdata : (nestParens n "7").data
      = List.replicate n '(' ++ '7' :: List.replicate n ')' := by
    show List.replicate n '(' ++ "7".data ++ List.replicate n ')' = _
    rw [show "7".data = ['7'] from rfl]
    simp
  have hlen : (nestParens n "7").data.length = 2 * n + 1 := by
    rw [hdata]
    simp [List.length_append, List.length_replicate]
    omega
  have hseven : ∀ fuel level, tokenizeAux (fuel + 1) level ('7' :: List.replicate n ')')
      = match tokenizeAux fuel level (List.replicate n ')') with
        | .ok ts => .ok (.num 7 :: ts)
        | .error e => .error e := by
    intro fuel level
    cases n with
    | zero => rfl
    | succ k => rw [List.replicate_succ]; rfl
  rw [show tokenize (nestParens n "7")
        = tokenizeAux ((nestParens n "7").data.length + 1) 0 (nestParens n "7").data
        from rfl,
      hlen, hdata,
      show 2 * n + 1 + 1 = n + (n + 2) by omega,
      tokenizeAux_lparen_block n (n + 2) 0 ('7' :: List.replicate n ')') (by omega),
      show n + 2 = (n + 1) + 1 by omega, Nat.zero_add,
      hseven (n + 1) n,
      show List.replicate n ')' = List.replicate n ')' ++ [] by simp,
      tokenizeAux_rparen_block n 1 n [],
      show tokenizeAux 1 (n - n) ([] : List Char)
        = (.ok ([] : List Tok) : Except String (List Tok)) from rfl]
  simp

/-- Beyond the cap, `(^n 7 )^n` hits the host tokenizer's limit. -/
theorem tokenize_nest_deep (n : ℕ) (hn : 200 < n) :
    tokenize (nestParens n "7") = .error "too many nested parentheses" := by
  have hdata : (nestParens n "7").data
      = List.replicate n '(' ++ ('7' :: List.replicate n ')') := by
    show List.replicate n '(' ++ "7".data ++ List.replicate n ')' = _
    rw [show "7".data = ['7'] from rfl]
    simp
  have hlen : (nestParens n "7").data.length = 2 * n + 1 := by
    rw [hdata]
    simp [List.length_append, List.length_replicate]
    omega
  rw [show tokenize (nestParens n "7")
        = tokenizeAux ((nestParens n "7").data.length + 1) 0 (nestParens n "7").data
        from rfl,
      hlen, hdata,
      tokenizeAux_lparen_deep n (2 * n + 1 + 1) 0 ('7' :: List.replicate n ')')
        (by omega) (by omega) (by omega)]

/-- One-step unfolding lemmas for the parser (fuel in successor form). -/
theorem parseAdd_succ (F : ℕ) (ts : List Tok) :
    parseAdd (F + 1) ts
      = match parseMul F ts with
        | .ok (a, rest) => parseAddLoop F a rest
        | .error e => .error e := rfl

theorem parseMul_succ (F : ℕ) (ts : List Tok) :
    parseMul (F + 1) ts
      = match parseUnary F ts with
        | .ok (a, rest) => parseMulLoop F a rest
        | .error e => .error e := rfl

theorem parseUnary_succ (F : ℕ) (ts : List Tok) :
    parseUnary (F + 1) ts
      = match ts with
        | .plus :: rest =>
            match parseUnary F rest with
            | .ok (e, rest2) => .ok (.unaryOp .uadd e, rest2)
            | .error e => .error e
        | .minus :: rest =>
            match parseUnary F rest with
            | .ok (e, rest2) => .ok (.unaryOp .usub e, rest2)
            | .error e => .error e
        | _ => parsePower F ts := rfl

theorem parsePower_succ (F : ℕ) (ts : List Tok) :
    parsePower (F + 1) ts
      = match parseAtom F ts with
        | .ok (a, .dstar :: rest) =>
            match parseUnary F rest with
            | .ok (b, rest2) => .ok (.binOp .pow a b, rest2)
            | .error e => .error e
        | .ok (a, rest) => .ok (a, rest)
        | .error e => .error e := rfl

theorem parseAtom_lparen (F : ℕ) (rest : List Tok) :
    parseAtom (F + 1) (.lparen :: rest)
      = match parseAdd F rest with
        | .ok (e, .rparen :: rest2) => .ok (e, rest2)
        | .ok _ => .error "expected a closing parenthesis"
        | .error e => .error e := rfl

/-- The parser accepts `(^k 7 )^k` (followed by a closing parenthesis or the
end of input) at any nesting depth `k`, with fuel `5k + 5` or more. -/
theorem parseAdd_nest :
    ∀ (k d : ℕ) (tail : List Tok),
      (tail = [] ∨ ∃ rest, tail = Tok.rparen :: rest) →
      parseAdd (d + (5 * k + 5))
        (List.replicate k Tok.lparen ++
          Tok.num 7 :: (List.replicate k Tok.rparen ++ tail))
        = .ok (.constant (.int 7), tail) := by
  intro k
  induction k with
  | zero =>
      intro d tail htail
      simp only [List.replicate_zero, List.nil_append, Nat.mul_zero, Nat.zero_add]
      rcases htail with rfl | ⟨rest, rfl⟩
      · rfl
      · rfl
  | succ k ih =>
      intro d tail htail
      have hlist :
          List.replicate (k + 1) Tok.lparen ++
            Tok.num 7 :: (List.replicate (k + 1) Tok.rparen ++ tail)
          = Tok.lparen :: (List.replicate k Tok.lparen ++
              Tok.num 7 :: (List.replicate k Tok.rparen ++ (Tok.rparen :: tail))) := by
        rw [List.replicate_succ, List.replicate_succ' (n := k)]
        simp [List.append_assoc]
      rw [hlist,
          show d + (5 * (k + 1) + 5) = ((((d + (5 * k + 5)) + 1) + 1) + 1) + 1 + 1
            by ring,
          parseAdd_succ, parseMul_succ, parseUnary_succ, parsePower_succ,
          parseAtom_lparen, ih d (Tok.rparen :: tail) (Or.inr ⟨tail, rfl⟩)]
      rcases htail with rfl | ⟨rest, rfl⟩
      · rfl
      · rfl

/-- The whole pipeline accepts `(^n 7 )^n` at any depth up to the host
tokenizer's cap of 200. -/
theorem eval_expr_nest (n : ℕ) (hn : n ≤ 200) :
    eval_expr (nestParens n "7") = .ok (.int 7) := by
  have hspace : (nestParens n "7").data.all isPySpace = false := by
    rw [show (nestParens n "7").data
          = List.replicate n '(' ++ "7".data ++ List.replicate n ')' from rfl,
        show "7".data = ['7'] from rfl, List.append_assoc, List.singleton_append]
    simp [List.all_append, show isPySpace '7' = false from rfl]
  have htoks := tokenize_nest n hn
  have hlen : (List.replicate n Tok.lparen ++
      Tok.num 7 :: List.replicate n Tok.rparen).length = 2 * n + 1 := by
    simp [List.length_append, List.length_replicate]
    omega
  have hparse : parse (nestParens n "7") = .ok (.constant (.int 7)) := by
    rw [show parse (nestParens n "7")
          = (match tokenize (nestParens n "7") with
             | .error e => .error e
             | .ok ts =>
               match parseAdd (5 * ts.length + 5) ts with
               | .ok (e, []) => .ok e
               | .ok (_, _ :: _) => .error "invalid syntax (trailing input)"
               | .error e => .error e) from rfl,
        htoks]
    have hpa := parseAdd_nest n (5 * n + 5) [] (Or.inl rfl)
    rw [List.append_nil] at hpa
    simp only [hlen, show 5 * (2 * n + 1) + 5 = (5 * n + 5) + (5 * n + 5) by ring,
               hpa]
  simp only [eval_expr, hspace, Bool.false_eq_true, if_false, hparse]
  rfl

/-- Beyond the cap the pipeline fails in the parse stage, wrapped as the
syntax-error `ValueError` - not a resource-limit error. -/
theorem eval_expr_nest_deep (n : ℕ) (hn : 200 < n) :
    eval_expr (nestParens n "7")
      = .error (.valueError
          "Syntax error in expression: too many nested parentheses") := by
  have hspace : (nestParens n "7").data.all isPySpace = false := by
    rw [show (nestParens n "7").data
          = List.replicate n '(' ++ "7".data ++ List.replicate n ')' from rfl,
        show "7".data = ['7'] from rfl, List.append_assoc, List.singleton_append]
    simp [List.all_append, show isPySpace '7' = false from rfl]
  have hparse : parse (nestParens n "7") = .error "too many nested parentheses" := by
    rw [show parse (nestParens n "7")
          = (match tokenize (nestParens n "7") with
             | .error e => .error e
             | .ok ts =>
               match parseAdd (5 * ts.length + 5) ts with
               | .ok (e, []) => .ok e
               | .ok (_, _ :: _) => .error "invalid syntax (trailing input)"
               | .error e => .error e) from rfl,
        tokenize_nest_deep n hn]
  simp only [eval_expr, hspace, Bool.false_eq_true, if_false, hparse]
  rfl

/-- C9 counterexample: at nesting depth 400 - beyond any limit - `eval_expr`
does not fail with a resource-limit error: the code defines no resource-limit
error kind at all, and what actually fires is the host parser's
`SyntaxError: too many nested parentheses`, surfaced through the
syntax-error branch as `ValueError("Syntax error in expression: ...")`. -/
theorem c9_counterexample :
    eval_expr (nestParens 400 "7")
      = .error (.valueError
          "Syntax error in expression: too many nested parentheses") :=
  eval_expr_nest_deep 400 (by omega)

/-- C9 (amended).  `eval_expr` terminates on every nesting depth, with a
numeric result up to the host tokenizer's cap of 200 nested parentheses and
with a syntax-error `ValueError` beyond it; the repository code itself
imposes no depth limit and defines no resource-limit error - the rejection
of deep nesting comes from the host parser and is reported as a syntax
error. -/
theorem c9_nesting_behavior (n : ℕ) :
    (n ≤ 200 → eval_expr (nestParens n "7") = .ok (.int 7)) ∧
    (200 < n → eval_expr (nestParens n "7")
      = .error (.valueError
          "Syntax error in expression: too many nested parentheses")) :=
  ⟨eval_expr_nest n, eval_expr_nest_deep n⟩

/-- C9 witness: depth 3 is under the cap and evaluates; depth 201 is over it
and fails as a syntax error. -/
theorem c9_witness :
    eval_expr (nestParens 3 "7") = .ok (.int 7) ∧
    eval_expr (nestParens 201 "7")
      = .error (.valueError
          "Syntax error in expression: too many nested parentheses") :=
  ⟨(c9_nesting_behavior 3).1 (by omega), (c9_nesting_behavior 201).2 (by omega)⟩

end Calculator
